import Mathlib

/-
Verification of the tagged-union library (tagged_union.hpp).

The UNION(type_name, (T1, f1), ...) macro generates, for a declared tag set,
a struct holding a discriminator `m_tag` and a raw union `m_storage` in which
at most one alternative's payload is constructed at a time.  We embed such a
generated type shallowly: the tag set becomes a type `τ` with decidable
equality, the alternative payload types become a family `P : τ → Type`, and
the raw storage cell becomes an `Option (Sigma P)` recording which payload (if
any) is currently constructed in the cell.  Reading the cell through a field
of the wrong alternative, or while nothing is constructed, is undefined
behavior in C++; the model returns an arbitrary (`Inhabited`) junk value
there.  Payload constructors that may throw are modelled by `Option`: `none`
means the constructor exits by an exception.
-/

namespace tu

/-- The generated union struct: a discriminator plus the storage cell.
`m_storage = some ⟨t, v⟩` means the payload `v` of alternative `t` is the one
currently constructed in the raw cell; `m_storage = none` means no payload is
alive (as after a destructor call or a failed reconstruction). -/
structure Union (τ : Type) (P : τ → Type) where
  m_tag : τ
  m_storage : Option (Sigma P)

section Core

variable {τ : Type} [DecidableEq τ] {P : τ → Type} [∀ t, Inhabited (P t)] {R : Type}

/-- Reading the raw cell through the field of alternative `t`
(`m_storage.field_name` in the macro expansion).  If the live payload is of a
different alternative, or nothing is alive, the read is undefined behavior in
C++; the model yields an arbitrary junk value. -/
def rawRead (s : Option (Sigma P)) (t : τ) : P t :=
  match s with
  | some v => if h : v.1 = t then h ▸ v.2 else default
  | none => default

/-- Accessor `get_tag`: returns `m_tag`. -/
def get_tag (u : Union τ P) : τ :=
  u.m_tag

/-- Accessor `holds<tag>`: returns `m_tag == tag`. -/
def holds (u : Union τ P) (t : τ) : Bool :=
  decide (get_tag u = t)

/-- Checked accessor `get_ptr<tag>`: `m_tag == tag ? &m_storage.field : nullptr`.
`some` models the non-null pointer to the storage field; its referent is the
raw-cell read at `tag`. -/
def get_ptr (u : Union τ P) (t : τ) : Option (P t) :=
  if get_tag u = t then some (rawRead u.m_storage t) else none

/-- The in-place constructor `type_name(tu::in_place_tag_t<tag>, args...)`:
`m_tag` is initialized to `tag` first, then the payload is
placement-constructed in the cell from `args`.  `mk = none` models the payload
constructor throwing: the cell is then left with no live payload (while
`m_tag` was already set). -/
def inPlaceCtor (t : τ) (mk : Option (P t)) : Union τ P :=
  { m_tag := t, m_storage := mk.map fun v => ⟨t, v⟩ }

/-- `create<tag>(args...)`: delegates to the in-place constructor with a
successfully constructed payload. -/
def create (t : τ) (v : P t) : Union τ P :=
  inPlaceCtor t (some v)

/-- The destructor `~type_name()`: switches on `m_tag` and destroys the field
it names; afterwards no payload is alive in the cell (the bytes and `m_tag`
remain). -/
def destruct (u : Union τ P) : Union τ P :=
  { u with m_storage := none }

/-- `emplace<tag>(args...)`: `this->~type_name();` followed by
`new (this) type_name(tu::in_place_tag<tag>, args...)` — destroy the active
payload first, then run the in-place constructor in the same cell.  Both
fields of the destroyed cell are re-initialized by the placement-new. -/
def emplace (u : Union τ P) (t : τ) (mk : Option (P t)) : Union τ P :=
  let destroyed := destruct u
  { destroyed with m_tag := t, m_storage := (inPlaceCtor t mk).m_storage }

/-- The copy constructor `type_name(type_name const &other)`: initializes
`m_tag` from `other.m_tag`, switches on it and copy-constructs the named
field from `other`'s field (a raw-cell read).  The source is taken by const
reference; the pair returned is (new object, source after the call), the
second component being `other` untouched. -/
def copyCtor (other : Union τ P) : Union τ P × Union τ P :=
  ({ m_tag := other.m_tag,
     m_storage := some ⟨other.m_tag, rawRead other.m_storage other.m_tag⟩ },
   other)

/-- The move constructor `type_name(type_name &&other)`: initializes `m_tag`
from `other.m_tag`, switches on it and move-constructs the named field from
`std::move(other)`'s field.  `mf t` models the valid-but-unspecified
moved-from residue that moving a payload of alternative `t` leaves in the
source; the source's `m_tag` is never written.  The pair returned is
(new object, source after the call). -/
def moveCtor (mf : ∀ t : τ, P t → P t) (other : Union τ P) : Union τ P × Union τ P :=
  let v := rawRead other.m_storage other.m_tag
  ({ m_tag := other.m_tag, m_storage := some ⟨other.m_tag, v⟩ },
   { other with m_storage := some ⟨other.m_tag, mf other.m_tag v⟩ })

/-- Copy assignment `operator=(type_name const &other)`:
`if (this != &other) { this->~type_name(); new (this) type_name(other); }`.
`sameAddr` models the pointer comparison `this == &other`.  When the
addresses differ, `*this` is destroyed and then copy-constructed from
`other` in the same cell; the result is the copy constructor's output. -/
def copyAssign (self other : Union τ P) (sameAddr : Bool) : Union τ P :=
  if sameAddr then self
  else (copyCtor other).1

/-- Move assignment `operator=(type_name &&other)`: as copy assignment but
move-constructing from `other`.  Returns (`*this` after, `other` after). -/
def moveAssign (mf : ∀ t : τ, P t → P t) (self other : Union τ P) (sameAddr : Bool) :
    Union τ P × Union τ P :=
  if sameAddr then (self, other)
  else moveCtor mf other

/-- The single-liveness invariant: the payload alive in the cell is exactly
the alternative named by `m_tag`. -/
def LiveInv (u : Union τ P) : Prop :=
  ∃ v : P (get_tag u), u.m_storage = some ⟨get_tag u, v⟩

/-- Union values reachable through the public lifetime operations, starting
from successful in-place creation. -/
inductive Reachable : Union τ P → Prop
  | of_create (t : τ) (v : P t) : Reachable (create t v)
  | of_copy {u : Union τ P} : Reachable u → Reachable (copyCtor u).1
  | of_move_dst {u : Union τ P} (mf : ∀ t : τ, P t → P t) :
      Reachable u → Reachable (moveCtor mf u).1
  | of_move_src {u : Union τ P} (mf : ∀ t : τ, P t → P t) :
      Reachable u → Reachable (moveCtor mf u).2
  | of_emplace {u : Union τ P} (t : τ) (v : P t) :
      Reachable u → Reachable (emplace u t (some v))
  | of_copy_assign {u w : Union τ P} (b : Bool) :
      Reachable u → Reachable w → Reachable (copyAssign u w b)
  | of_move_assign_dst {u w : Union τ P} (mf : ∀ t : τ, P t → P t) (b : Bool) :
      Reachable u → Reachable w → Reachable (moveAssign mf u w b).1
  | of_move_assign_src {u w : Union τ P} (mf : ∀ t : τ, P t → P t) (b : Bool) :
      Reachable u → Reachable w → Reachable (moveAssign mf u w b).2

/-- A visitor for the dispatch engine, as probed by the `requires` clauses of
`UNION_VISIT_*_CASE_IMPL`.  `onTag t = some f` means the call
`visitor(tu::in_place_tag<t>, payload)` is well-formed (the tag witness
carries no data, so `f` takes the payload alone); `onValue = some g` means
the whole-value call `visitor(*this)` is well-formed. -/
structure Visitor (τ : Type) (P : τ → Type) (R : Type) where
  onTag : ∀ t : τ, Option (P t → R)
  onValue : Option (Union τ P → R)

/-- `visit<ReturnType>(visitor)` (const lvalue overload): switch on `m_tag`;
in the case for the active tag, try the tag-specific call shape first, then
the whole-value shape, else `return;`.  For `ReturnType` void the last branch
is a genuine no-op; `unspec` stands for the value a bare `return;` would
yield when a non-void instantiation is nevertheless accepted (the branch is
ill-formed in standard C++ for non-void `ReturnType`). -/
def visit (unspec : R) (u : Union τ P) (h : Visitor τ P R) : R :=
  match h.onTag u.m_tag, h.onValue with
  | some f, _ => f (rawRead u.m_storage u.m_tag)
  | none, some g => g u
  | none, none => unspec

/-- A visitor for the mutable lvalue overload of `visit`: the tag-specific
shape receives the payload by mutable reference (modelled as returning the
updated payload), the whole-value shape receives `*this` by mutable
reference (modelled as returning the updated union). -/
structure MutVisitor (τ : Type) (P : τ → Type) (R : Type) where
  onTag : ∀ t : τ, Option (P t → R × P t)
  onValue : Option (Union τ P → R × Union τ P)

/-- `visit<ReturnType>(visitor)` (mutable lvalue overload), returning the
result together with the union state after the call. -/
def visitMut (unspec : R) (u : Union τ P) (h : MutVisitor τ P R) : R × Union τ P :=
  match h.onTag u.m_tag, h.onValue with
  | some f, _ =>
      let rv := f (rawRead u.m_storage u.m_tag)
      (rv.1, { m_tag := u.m_tag, m_storage := some ⟨u.m_tag, rv.2⟩ })
  | none, some g => g u
  | none, none => (unspec, u)

/-- `tu::combined_visitor{CASE lambdas..., OTHERWISE lambda}`: each
`CASE(f, v, block)` contributes an `operator()` taking
`(tu::in_place_tag_t<f>, payload)` — the tag-specific shape for `f`; an
`OTHERWISE(v, block)` contributes a generic unary `operator()`, which is
callable with the whole union and hence fills the whole-value slot. -/
def combined_visitor (caseFns : ∀ t : τ, Option (P t → R))
    (otherwiseFn : Option (Union τ P → R)) : Visitor τ P R :=
  { onTag := caseFns, onValue := otherwiseFn }

/-- The `MATCH(return_type, value, cases...)` macro: build the combined
visitor from the case and otherwise branches and call `visit`. -/
def MATCH (unspec : R) (u : Union τ P) (caseFns : ∀ t : τ, Option (P t → R))
    (otherwiseFn : Option (Union τ P → R)) : R :=
  visit unspec u (combined_visitor caseFns otherwiseFn)

end Core

/-- A concrete three-alternative tag set, as in claim C7's {A, B, C}. -/
inductive Tag3
  | A
  | B
  | C
deriving DecidableEq

/-- Payload family for the concrete instance: every alternative holds a `Nat`
(the same payload type may be reused under distinct names). -/
abbrev PN : Tag3 → Type := fun _ => Nat

/-- The declaration-order discriminator value of a tag. -/
def tagIdx : Tag3 → Nat
  | .A => 0
  | .B => 1
  | .C => 2

/-- Result marker recording which branch of a match ran. -/
inductive Branch
  | caseA
  | caseB
  | fallback
  | unspecBranch
deriving DecidableEq

/-- Case branches covering alternatives A and B only (no case for C). -/
def casesAB : ∀ t : Tag3, Option (PN t → Branch) := fun t =>
  match t with
  | .A => some fun _ => Branch.caseA
  | .B => some fun _ => Branch.caseB
  | .C => none

/-- Concrete union holding alternative A with payload 5. -/
def uA5 : Union Tag3 PN := create Tag3.A 5

/-- Concrete union holding alternative B with payload 7. -/
def uB7 : Union Tag3 PN := create Tag3.B 7

/-- Concrete union holding alternative C with payload 7. -/
def uC7 : Union Tag3 PN := create Tag3.C 7

/-- A visitor supporting both the tag-specific shape (payload + 1) and the
whole-value shape (constant 42) for every tag. -/
def bothVisitor : Visitor Tag3 PN Nat :=
  { onTag := fun _ => some fun n => n + 1, onValue := some fun _ => 42 }

/-- A visitor supporting neither shape for any tag. -/
def noneVisitor : Visitor Tag3 PN Nat :=
  { onTag := fun _ => none, onValue := none }

/-- A mutable-overload visitor supporting neither shape for any tag. -/
def noneMutVisitor : MutVisitor Tag3 PN Unit :=
  { onTag := fun _ => none, onValue := none }

/-- An empty case list: no case branch for any tag. -/
def casesNone3 : ∀ t : Tag3, Option (PN t → Nat) := fun _ => none

/-- An OTHERWISE branch body observing the active tag of the value it is
bound to; definable only because the bound value is the whole union. -/
def tagProbe : Union Tag3 PN → Nat := fun w => tagIdx (get_tag w)

/-- Claim C1: for every reachable union value and every declared tag `t`, the
three checks agree — `holds t` is true iff `get_ptr t` is non-null iff
`get_tag = t` — and `get_tag` always names exactly one declared alternative
(exactly one tag satisfies `holds`). -/
theorem checks_agree {τ : Type} [DecidableEq τ] {P : τ → Type} [∀ t, Inhabited (P t)]
    {u : Union τ P} (_hr : Reachable u) :
    (∀ t : τ, holds u t = (get_ptr u t).isSome ∧ (holds u t = true ↔ get_tag u = t))
      ∧ ∃! t : τ, holds u t = true := by
  refine ⟨fun t => ⟨?_, ?_⟩, get_tag u, ?_, fun y hy => ?_⟩
  · by_cases h : get_tag u = t <;> simp [holds, get_ptr, h]
  · simp [holds]
  · simp [holds]
  · have hy' : decide (get_tag u = y) = true := hy
    exact (of_decide_eq_true hy').symm

/-- Witness for C1 at the concrete reachable value `create A 5`. -/
theorem checks_agree_witness :
    (∀ t : Tag3, holds uA5 t = (get_ptr uA5 t).isSome ∧ (holds uA5 t = true ↔ get_tag uA5 = t))
      ∧ ∃! t : Tag3, holds uA5 t = true :=
  checks_agree (Reachable.of_create Tag3.A 5)

/-- Claim C2: when the handler supports both the tag-specific call shape and
the whole-value call shape for the active tag, `visit` invokes the
tag-specific one on the active payload and returns its result — for any
whole-value branch `g`, which is therefore never consulted. -/
theorem visit_prefers_tag_specific {τ : Type} [DecidableEq τ] {P : τ → Type}
    [∀ t, Inhabited (P t)] {R : Type} (unspec : R) (u : Union τ P) (h : Visitor τ P R)
    (f : P (get_tag u) → R) (g : Union τ P → R)
    (hf : h.onTag (get_tag u) = some f) (_hg : h.onValue = some g) :
    visit unspec u h = f (rawRead u.m_storage (get_tag u)) := by
  simp only [get_tag] at hf
  simp [visit, get_tag, hf]

/-- Witness for C2: on `create A 5` with a visitor supporting both shapes,
the tag-specific branch (payload + 1) runs, not the whole-value one. -/
theorem visit_prefers_tag_specific_witness :
    visit 99 uA5 bothVisitor = 6 := by
  have h := visit_prefers_tag_specific 99 uA5 bothVisitor (fun n => n + 1) (fun _ => 42) rfl rfl
  simpa [uA5, create, inPlaceCtor, rawRead, get_tag] using h

/-- Claim C4: `emplace` destroys the active payload first and only then runs
the new alternative's constructor; if that constructor throws (`mk = none`),
the union is left with no live payload at all — the single-liveness
invariant is broken and the old payload is not restored. -/
theorem emplace_throw_no_live_payload {τ : Type} [DecidableEq τ] {P : τ → Type}
    [∀ t, Inhabited (P t)] (u : Union τ P) (t : τ) :
    (emplace u t none).m_storage = none ∧ ¬ LiveInv (emplace u t none) := by
  refine ⟨rfl, ?_⟩
  rintro ⟨v, hv⟩
  simp [emplace, destruct, inPlaceCtor] at hv

/-- Claim C5: after a successful `emplace<t>(args)`, whatever the prior tag,
`get_tag` is `t` and the stored payload is exactly the value direct
construction from `args` would produce (the result coincides with
`create t v`). -/
theorem emplace_replaces {τ : Type} [DecidableEq τ] {P : τ → Type}
    [∀ t, Inhabited (P t)] (u : Union τ P) (t : τ) (v : P t) :
    get_tag (emplace u t (some v)) = t
      ∧ get_ptr (emplace u t (some v)) t = some v
      ∧ emplace u t (some v) = create t v := by
  refine ⟨rfl, ?_, rfl⟩
  simp [get_ptr, get_tag, emplace, destruct, inPlaceCtor, rawRead]

/-- Claim C6: copy construction yields the same tag and a value-equal payload
and leaves the source untouched; move construction yields the same tag with
the source's payload moved in, while the source keeps its original tag (it is
never re-tagged) and its payload is left alive in the moved-from state. -/
theorem copy_move_fidelity {τ : Type} [DecidableEq τ] {P : τ → Type}
    [∀ t, Inhabited (P t)] (mf : ∀ t : τ, P t → P t) (other : Union τ P) :
    get_tag (copyCtor other).1 = get_tag other
      ∧ get_ptr (copyCtor other).1 (get_tag other) = get_ptr other (get_tag other)
      ∧ (copyCtor other).2 = other
      ∧ get_tag (moveCtor mf other).1 = get_tag other
      ∧ get_ptr (moveCtor mf other).1 (get_tag other)
          = some (rawRead other.m_storage (get_tag other))
      ∧ get_tag (moveCtor mf other).2 = get_tag other
      ∧ (moveCtor mf other).2.m_storage
          = some ⟨get_tag other, mf (get_tag other) (rawRead other.m_storage (get_tag other))⟩ := by
    refine ⟨rfl, ?_, rfl, rfl, ?_, rfl, rfl⟩
    · simp [get_ptr, get_tag, copyCtor, rawRead]
    · simp [get_ptr, get_tag, moveCtor, rawRead]

/-- Claim C7: on the three-alternative type {A, B, C}, a match with case
branches for A and B plus a default branch runs the default exactly when the
active tag is C, and the corresponding case branch when it is A or B. -/
theorem match_default_exactly_when_third (u : Union Tag3 PN) :
    MATCH Branch.unspecBranch u casesAB (some fun _ => Branch.fallback)
      = (match get_tag u with
         | Tag3.A => Branch.caseA
         | Tag3.B => Branch.caseB
         | Tag3.C => Branch.fallback) := by
  obtain ⟨t, s⟩ := u
  cases t <;> rfl

/-- Claim C8 counterexample: two unions whose active payloads are the same
value 7 (under tags B and C, neither covered by a case).  If the OTHERWISE
parameter were bound to the payload alone, both default invocations would
receive the identical argument 7 and return equal results; they differ,
because the engine's whole-value strategy binds the parameter to the entire
union. -/
theorem otherwise_not_payload_counterexample :
    get_ptr uB7 Tag3.B = some 7 ∧ get_ptr uC7 Tag3.C = some 7 ∧
      MATCH 0 uB7 casesNone3 (some tagProbe) ≠ MATCH 0 uC7 casesNone3 (some tagProbe) := by
  decide

/-- Claim C8 (amended): when the default (OTHERWISE) branch of the
pattern-match layer is invoked, its parameter is bound to the entire union
value — visit's whole-value strategy passing `*this` — not to the payload
alone. -/
theorem match_otherwise_binds_whole_union {τ : Type} [DecidableEq τ] {P : τ → Type}
    [∀ t, Inhabited (P t)] {R : Type} (unspec : R) (u : Union τ P)
    (caseFns : ∀ t : τ, Option (P t → R)) (g : Union τ P → R)
    (hc : caseFns (get_tag u) = none) :
    MATCH unspec u caseFns (some g) = g u := by
  simp only [get_tag] at hc
  simp [MATCH, combined_visitor, visit, hc]

/-- Witness for the amended C8: with no case for the active tag C, the
default branch receives the whole union `uC7` (it can observe the tag). -/
theorem match_otherwise_binds_whole_union_witness :
    MATCH 0 uC7 casesNone3 (some tagProbe) = tagProbe uC7 :=
  match_otherwise_binds_whole_union 0 uC7 casesNone3 tagProbe rfl

/-- Claim C9: for the void-returning application, when the handler supports
neither the tag-specific nor the whole-value shape for the active tag, the
call returns without invoking any handler and the union is left completely
unchanged — same tag, same payload, nothing destroyed or constructed. -/
theorem visit_void_no_strategy_noop {τ : Type} [DecidableEq τ] {P : τ → Type}
    [∀ t, Inhabited (P t)] (u : Union τ P) (h : MutVisitor τ P Unit)
    (h1 : h.onTag (get_tag u) = none) (h2 : h.onValue = none) :
    visitMut () u h = ((), u) := by
  simp only [get_tag] at h1
  unfold visitMut
  rw [h1, h2]

/-- Witness for C9 at `create A 5` with a strategy-less visitor. -/
theorem visit_void_no_strategy_noop_witness :
    visitMut () uA5 noneMutVisitor = ((), uA5) :=
  visit_void_no_strategy_noop uA5 noneMutVisitor rfl rfl

/-- Claim C10: self-assignment, in both the copy and the move form, leaves
the union completely unchanged — the `this != &other` guard short-circuits
the destroy-then-reconstruct path, so the tag stays and the payload is
neither destroyed nor reconstructed. -/
theorem self_assign_noop {τ : Type} [DecidableEq τ] {P : τ → Type}
    [∀ t, Inhabited (P t)] (mf : ∀ t : τ, P t → P t) (u : Union τ P) :
    copyAssign u u true = u ∧ moveAssign mf u u true = (u, u) := by
  constructor <;> rfl

end tu
